import Mathlib

/-!
Shallow embedding of `src/app/module/drivers/kscan/kscan_ptty.c` (ZMK ptty
kscan driver): the line reader `recv_line`, the command parser
`kscan_parse_command` (including a model of the C `sscanf` calls it makes),
the tick handler `kscan_ptty_work_handler`, and `kscan_ptty_configure`.

Characters are Lean `Char`s (C `char` byte values); machine `int`s are
unbounded `Int` (the spec declares no range limit beyond the host width);
the UART character source is a finite list of poll outcomes (a successful
`uart_poll_in` yielding a char, or a nonzero fault code that ends the read
loop — list exhaustion likewise models a failing poll).  The handler's side
effects (log calls, the sink callback, `k_work_schedule`, `exit`) are
recorded as an explicit effect trace.
-/

/-- Zephyr/newlib errno value used by the driver. -/
def EINVAL : Int := 22

/-- Zephyr/newlib errno value used by the driver. -/
def ENODATA : Int := 61

/-- Zephyr/newlib errno value used by the driver. -/
def EOVERFLOW : Int := 75

/-- `#define MAX_CMD_LEN 128`. -/
def MAX_CMD_LEN : Nat := 128

/-- One `uart_poll_in` outcome: a successfully read character, or a nonzero
fault code (the loop `while (!uart_poll_in(uart, &c))` exits on the latter). -/
inductive Poll where
  | ch : Char → Poll
  | err : Int → Poll
deriving DecidableEq

/-- The loop of `recv_line`, carrying the characters written to `buf` so far
(`acc` = the prefix `buf[0 .. out-1]`).  Each successful poll first checks
`out - buf >= MAX_CMD_LEN - 1` (overflow), then breaks on `'\n'`/`'\0'`,
else stores the character.  A failing poll (or source exhaustion) ends the
loop; the post-loop check `out == buf && c == '\0'` yields `-ENODATA`:
with zero characters stored the loop can only have ended on `c == '\0'`
(initial or read), so a failing poll with an empty buffer is `-ENODATA`
and with a nonempty buffer the last stored `c` is not `'\0'`, giving `0`. -/
def recvAux : List Poll → List Char → Int × List Char
  | [], acc => if acc = [] then (-ENODATA, acc) else (0, acc)
  | Poll.err _ :: _, acc => if acc = [] then (-ENODATA, acc) else (0, acc)
  | Poll.ch c :: rest, acc =>
    if MAX_CMD_LEN - 1 ≤ acc.length then (-EOVERFLOW, acc)
    else if c = '\n' ∨ c = '\x00' then
      if acc = [] ∧ c = '\x00' then (-ENODATA, acc) else (0, acc)
    else recvAux rest (acc ++ [c])

/-- `recv_line(uart, buf)`: returns the C return code and the characters the
call left in `buf` (on `0` the complete line, terminator stripped; on
`-EOVERFLOW` the 127 accumulated characters; on `-ENODATA` nothing). -/
def recv_line (src : List Poll) : Int × List Char :=
  recvAux src []

example : recv_line [] = (-ENODATA, []) := by decide
example : recv_line [Poll.ch '\x00'] = (-ENODATA, []) := by decide
example : recv_line [Poll.ch '\n'] = (0, []) := by decide
example : recv_line [Poll.ch 'a', Poll.ch '\n'] = (0, ['a']) := by decide
example : recv_line [Poll.ch 'a', Poll.ch '\x00'] = (0, ['a']) := by decide
example : recv_line [Poll.ch 'a', Poll.err (-1)] = (0, ['a']) := by decide
example : recv_line [Poll.err (-5)] = (-ENODATA, []) := by decide

/-! ### Model of the `sscanf` calls made by `kscan_parse_command`

The formats used are `"p %d %d"`, `"r %d %d"` and `"w %d"`: a literal tag
character, then one or two `%d` conversions each preceded by a whitespace
directive.  A `%d` conversion skips whitespace, reads an optional sign and a
maximal nonempty run of decimal digits; reaching the end of the input before
any conversion character is read is an input failure (`sscanf` returns `EOF`,
i.e. `-1`, if that happens before the first completed conversion), while a
non-numeric character is a matching failure that stops the scan.  A
whitespace directive never fails, so it is absorbed into the `%d` skip. -/

/-- `isspace` for the C locale: the characters `sscanf` whitespace skips. -/
def isWsC (c : Char) : Bool :=
  c = ' ' || c = '\t' || c = '\n' || c = '\x0b' || c = '\x0c' || c = '\r'

/-- Drop leading whitespace, as a whitespace directive or `%d` prefix does. -/
def skipWs : List Char → List Char
  | [] => []
  | c :: rest => if isWsC c then skipWs rest else c :: rest

/-- Decimal digit test on the byte value (`'0'` = 48 … `'9'` = 57). -/
def isDigitC (c : Char) : Bool := 48 ≤ c.toNat && c.toNat ≤ 57

/-- Numeric value of a decimal digit character. -/
def digitVal (c : Char) : Nat := c.toNat - 48

/-- Consume a maximal run of decimal digits, accumulating their value onto
`acc` most-significant-first, and return the value with the unread rest. -/
def takeDigits : List Char → Nat → Nat × List Char
  | [], acc => (acc, [])
  | c :: rest, acc =>
    if isDigitC c then takeDigits rest (acc * 10 + digitVal c) else (acc, c :: rest)

/-- Outcome of one `%d` conversion. -/
inductive IntScan where
  | ok : Int → List Char → IntScan
  | matchFail : IntScan
  | inputFail : IntScan
deriving DecidableEq

/-- The digit part of `%d` after the optional sign: requires at least one
digit, else the conversion is a matching failure. -/
def scanDigits (neg : Bool) (s : List Char) : IntScan :=
  match s with
  | [] => IntScan.matchFail
  | c :: _ =>
    if isDigitC c then
      let (v, rest) := takeDigits s 0
      IntScan.ok (if neg then -(v : Int) else (v : Int)) rest
    else IntScan.matchFail

/-- One `%d` conversion: skip whitespace, optional `-`/`+`, digits.  End of
input reached during the skip (before any conversion character) is an input
failure. -/
def scanInt (s : List Char) : IntScan :=
  match skipWs s with
  | [] => IntScan.inputFail
  | c :: rest =>
    if c = '-' then scanDigits true rest
    else if c = '+' then scanDigits false rest
    else scanDigits false (c :: rest)

/-- Result of an `sscanf` call with up to two `%d` conversions: the return
value `n` (conversion count, or `-1` for `EOF`) and the values actually
written to `args[0]` / `args[1]` (`none` = the slot was left untouched). -/
structure Sscan2 where
  n : Int
  v0 : Option Int
  v1 : Option Int
deriving DecidableEq

/-- `sscanf(s, "<tag> %d %d", &a0, &a1)`. -/
def sscanf_tag_dd (tag : Char) (s : List Char) : Sscan2 :=
  match s with
  | [] => ⟨-1, none, none⟩
  | c :: rest =>
    if c = tag then
      match scanInt rest with
      | IntScan.inputFail => ⟨-1, none, none⟩
      | IntScan.matchFail => ⟨0, none, none⟩
      | IntScan.ok a r1 =>
        match scanInt r1 with
        | IntScan.inputFail => ⟨1, some a, none⟩
        | IntScan.matchFail => ⟨1, some a, none⟩
        | IntScan.ok b _ => ⟨2, some a, some b⟩
    else ⟨0, none, none⟩

/-- `sscanf(s, "<tag> %d", &a0)`: the format ends after one conversion, so
any input after the first integer is simply left unread. -/
def sscanf_tag_d (tag : Char) (s : List Char) : Sscan2 :=
  match s with
  | [] => ⟨-1, none, none⟩
  | c :: rest =>
    if c = tag then
      match scanInt rest with
      | IntScan.inputFail => ⟨-1, none, none⟩
      | IntScan.matchFail => ⟨0, none, none⟩
      | IntScan.ok a _ => ⟨1, some a, none⟩
    else ⟨0, none, none⟩

/-- `kscan_parse_command(cmd, args)`: switch on `cmd[0]` (the head, or the
terminating NUL for an empty line) to pick the `sscanf` format, then validate
the conversion count: for `p`/`r`, `n == 1` defaults `args[1]` to 0 and any
`n ∉ {1,2}` is `-EINVAL`; for `w`, `n != 1` is `-EINVAL`; any other first
character is `-EINVAL` with `args` untouched.  On success the return value is
the character code of `cmd[0]`; `args` is returned as left by `sscanf`. -/
def kscan_parse_command (cmd : List Char) (args : Int × Int) : Int × (Int × Int) :=
  let c0 := cmd.headD '\x00'
  if c0 = 'p' ∨ c0 = 'r' then
    let s := sscanf_tag_dd c0 cmd
    let args1 := (s.v0.getD args.1, s.v1.getD args.2)
    if s.n = 1 then ((c0.toNat : Int), (args1.1, 0))
    else if s.n ≠ 2 then (-EINVAL, args1)
    else ((c0.toNat : Int), args1)
  else if c0 = 'w' then
    let s := sscanf_tag_d c0 cmd
    let args1 := (s.v0.getD args.1, s.v1.getD args.2)
    if s.n ≠ 1 then (-EINVAL, args1)
    else ((c0.toNat : Int), args1)
  else (-EINVAL, args)

example : kscan_parse_command "p 1 2".toList (-1, -1) = (112, (1, 2)) := by decide
example : kscan_parse_command "r 1 2".toList (-1, -1) = (114, (1, 2)) := by decide
example : kscan_parse_command "p 3".toList (-1, -1) = (112, (3, 0)) := by decide
example : kscan_parse_command "w 50".toList (-1, -1) = (119, (50, -1)) := by decide
example : kscan_parse_command "w 5 6".toList (-1, -1) = (119, (5, -1)) := by decide
example : kscan_parse_command "w".toList (-1, -1) = (-EINVAL, (-1, -1)) := by decide
example : kscan_parse_command "w x".toList (-1, -1) = (-EINVAL, (-1, -1)) := by decide
example : kscan_parse_command "x 1 2".toList (-1, -1) = (-EINVAL, (-1, -1)) := by decide
example : kscan_parse_command "p".toList (-1, -1) = (-EINVAL, (-1, -1)) := by decide
example : kscan_parse_command "p -4 -7".toList (-1, -1) = (112, (-4, -7)) := by decide
example : kscan_parse_command [] (-1, -1) = (-EINVAL, (-1, -1)) := by decide

/-! ### The tick handler and the configure entry point -/

/-- `struct kscan_ptty_config`: fixed at startup from the devicetree. -/
structure KscanPttyConfig where
  delay_ms : Int
  exit_after : Bool

/-- One observable side effect of a tick of `kscan_ptty_work_handler`, in
program order: the `LOG_INF`/`LOG_ERR`/`LOG_DBG` calls (error logs carry the
line they print), the kscan sink callback `data->callback(dev, row, col,
is_press)`, `k_work_schedule(q, K_MSEC(d))`, and `exit(code)`. -/
inductive Effect where
  | logInfo : Effect
  | logErrTooLong : List Char → Effect
  | logErrUnknown : Int → Effect
  | logErrInvalid : List Char → Effect
  | logDbg : Effect
  | callback : Int → Int → Bool → Effect
  | schedule : Int → Effect
  | exitProc : Int → Effect
deriving DecidableEq

/-- `kscan_ptty_work_handler`: one tick.  Switch on `recv_line`: `-ENODATA`
logs and either exits 0 (`exit_after`) or returns; `-EOVERFLOW` NUL-caps the
buffer at index 127, logs the truncated command and exits 1; any other
nonzero code logs it and exits 1; `0` falls through to parsing with
`args = {-1, -1}`.  On the parse result: `'p'`/`'r'` log, invoke the
callback with `(args[0], args[1], is_press)` and reschedule after the
configured `delay_ms`; `'w'` logs and reschedules after `args[0]` ms; any
other (i.e. `-EINVAL`) logs the invalid command and returns.  Returns the
effect trace and the updated diagnostic `cmd_idx`. -/
def kscan_ptty_work_handler (cfg : KscanPttyConfig) (src : List Poll)
    (cmd_idx : Int) : List Effect × Int :=
  let r := recv_line src
  let err := r.1
  let cmd := r.2
  if err = -ENODATA then
    if cfg.exit_after then ([Effect.logInfo, Effect.exitProc 0], cmd_idx)
    else ([Effect.logInfo], cmd_idx)
  else if err = -EOVERFLOW then
    ([Effect.logErrTooLong cmd, Effect.exitProc 1], cmd_idx)
  else if err = 0 then
    let p := kscan_parse_command cmd (-1, -1)
    let args := p.2
    if p.1 = ('p'.toNat : Int) then
      ([Effect.logDbg, Effect.callback args.1 args.2 true,
        Effect.schedule cfg.delay_ms], cmd_idx + 1)
    else if p.1 = ('r'.toNat : Int) then
      ([Effect.logDbg, Effect.callback args.1 args.2 false,
        Effect.schedule cfg.delay_ms], cmd_idx + 1)
    else if p.1 = ('w'.toNat : Int) then
      ([Effect.logDbg, Effect.schedule args.1], cmd_idx + 1)
    else
      ([Effect.logErrInvalid cmd], cmd_idx)
  else
    ([Effect.logErrUnknown err, Effect.exitProc 1], cmd_idx)

/-- `struct kscan_ptty_data`, with the pending `k_work_delayable` modelled as
the delay it is scheduled with (`none` = not scheduled) and the registered
callback as an opaque identifier (`none` = NULL). -/
structure KscanPttyData where
  callback : Option Nat
  work_scheduled : Option Int
  cmd_idx : Int
deriving DecidableEq

/-- `kscan_ptty_configure(dev, callback)`: a NULL callback returns `-EINVAL`
without touching the driver data; otherwise the callback is stored and the
work item is scheduled after the configured `delay_ms`, returning `0`. -/
def kscan_ptty_configure (cfg : KscanPttyConfig) (d : KscanPttyData)
    (callback : Option Nat) : Int × KscanPttyData :=
  match callback with
  | none => (-EINVAL, d)
  | some f =>
    (0, { d with callback := some f, work_scheduled := some cfg.delay_ms })

example :
    kscan_ptty_work_handler ⟨500, true⟩ [] 0 =
      ([Effect.logInfo, Effect.exitProc 0], 0) := by decide
example :
    kscan_ptty_work_handler ⟨500, false⟩ [] 0 = ([Effect.logInfo], 0) := by
  decide
example :
    kscan_ptty_work_handler ⟨500, false⟩ ("p 1 2\n".toList.map Poll.ch) 0 =
      ([Effect.logDbg, Effect.callback 1 2 true, Effect.schedule 500], 1) := by
  decide
example :
    kscan_ptty_work_handler ⟨500, false⟩ ("w 50\n".toList.map Poll.ch) 0 =
      ([Effect.logDbg, Effect.schedule 50], 1) := by decide
example :
    kscan_ptty_work_handler ⟨500, false⟩ ("x 1\n".toList.map Poll.ch) 0 =
      ([Effect.logErrInvalid "x 1".toList], 0) := by decide

/-! ### Decimal numerals, for quantifying over the command lines `"p R C"`

`natChars`/`intChars` spell an integer in the usual decimal notation (a `-`
sign followed by digits for negatives); `lineRC tag r c` and `lineR tag r`
are the command lines `"<tag> <r> <c>"` and `"<tag> <r>"`. -/

/-- The decimal digits of `n`, most significant first. -/
def natChars (n : Nat) : List Char :=
  if h : n < 10 then [Char.ofNat (48 + n)]
  else natChars (n / 10) ++ [Char.ofNat (48 + n % 10)]
termination_by n
decreasing_by simp_wf; omega

/-- The decimal numeral of `i`, with a leading `-` for negatives. -/
def intChars (i : Int) : List Char :=
  if i < 0 then '-' :: natChars i.natAbs else natChars i.toNat

/-- The command line `"<tag> <r> <c>"` as a character list. -/
def lineRC (tag : Char) (r c : Int) : List Char :=
  tag :: ' ' :: (intChars r ++ ' ' :: intChars c)

/-- The command line `"<tag> <r>"` as a character list. -/
def lineR (tag : Char) (r : Int) : List Char :=
  tag :: ' ' :: intChars r

/-! ### Digit and numeral lemmas -/

theorem toNat_ofNat_digit (n : Nat) (h : n < 10) :
    (Char.ofNat (48 + n)).toNat = 48 + n := by
  interval_cases n <;> decide

theorem isDigitC_ofNat_digit (n : Nat) (h : n < 10) :
    isDigitC (Char.ofNat (48 + n)) = true := by
  simp only [isDigitC, toNat_ofNat_digit n h, Bool.and_eq_true,
    decide_eq_true_eq]
  omega

theorem digitVal_ofNat_digit (n : Nat) (h : n < 10) :
    digitVal (Char.ofNat (48 + n)) = n := by
  simp only [digitVal, toNat_ofNat_digit n h]
  omega

theorem isDigitC_not_ws (c : Char) (h : isDigitC c = true) : isWsC c = false := by
  simp only [isWsC, Bool.or_eq_false_iff, decide_eq_false_iff_not]
  refine ⟨⟨⟨⟨⟨?_, ?_⟩, ?_⟩, ?_⟩, ?_⟩, ?_⟩ <;>
    · rintro rfl; exact absurd h (by decide)

theorem isDigitC_ne_sign (c : Char) (h : isDigitC c = true) :
    c ≠ '-' ∧ c ≠ '+' := by
  constructor <;> · rintro rfl; exact absurd h (by decide)

theorem natChars_ne_nil (n : Nat) : natChars n ≠ [] := by
  rw [natChars]
  split
  · simp
  · simp

theorem natChars_all_digits (n : Nat) :
    ∀ c ∈ natChars n, isDigitC c = true := by
  induction n using Nat.strong_induction_on with
  | _ n ih =>
    rw [natChars]
    split
    · next h =>
      intro c hc
      simp only [List.mem_singleton] at hc
      subst hc
      exact isDigitC_ofNat_digit n h
    · next h =>
      intro c hc
      rw [List.mem_append, List.mem_singleton] at hc
      rcases hc with hc | hc
      · exact ih (n / 10) (by omega) c hc
      · subst hc
        exact isDigitC_ofNat_digit (n % 10) (by omega)

/-- Whether a list does not begin with a decimal digit (so a maximal digit
run ending just before it is not extended into it). -/
def headNotDigit : List Char → Prop
  | [] => True
  | c :: _ => isDigitC c = false

theorem takeDigits_stop (rest : List Char) (acc : Nat) (h : headNotDigit rest) :
    takeDigits rest acc = (acc, rest) := by
  cases rest with
  | nil => rfl
  | cons c t =>
    simp only [headNotDigit] at h
    simp [takeDigits, h]

theorem takeDigits_natChars (n : Nat) :
    ∀ (acc : Nat) (rest : List Char),
      takeDigits (natChars n ++ rest) acc =
        takeDigits rest (acc * 10 ^ (natChars n).length + n) := by
  induction n using Nat.strong_induction_on with
  | _ n ih =>
    intro acc rest
    rw [natChars]
    split
    · next h =>
      simp only [List.singleton_append, List.length_singleton, takeDigits,
        isDigitC_ofNat_digit n h, if_true, digitVal_ofNat_digit n h, pow_one,
        List.nil_append, List.append_eq]
    · next h =>
      rw [List.append_assoc, List.singleton_append,
        ih (n / 10) (by omega) acc (Char.ofNat (48 + n % 10) :: rest)]
      simp only [takeDigits, isDigitC_ofNat_digit (n % 10) (by omega), if_true,
        digitVal_ofNat_digit (n % 10) (by omega), List.length_append,
        List.length_singleton]
      congr 1
      have hmod : 10 * (n / 10) + n % 10 = n := Nat.div_add_mod n 10
      have hpow : 10 ^ ((natChars (n / 10)).length + 1) =
          10 ^ (natChars (n / 10)).length * 10 := pow_succ 10 _
      rw [hpow]
      ring_nf
      omega

theorem headNotDigit_nil : headNotDigit [] := trivial

theorem headNotDigit_cons (c : Char) (t : List Char) (h : isDigitC c = false) :
    headNotDigit (c :: t) := h

theorem natChars_cons (n : Nat) :
    ∃ c t, natChars n = c :: t ∧ isDigitC c = true := by
  cases hnc : natChars n with
  | nil => exact absurd hnc (natChars_ne_nil n)
  | cons c t =>
    exact ⟨c, t, rfl, natChars_all_digits n c (hnc ▸ List.mem_cons_self ..)⟩

theorem scanDigits_natChars (neg : Bool) (n : Nat) (rest : List Char)
    (h : headNotDigit rest) :
    scanDigits neg (natChars n ++ rest) =
      IntScan.ok (if neg then -(n : Int) else (n : Int)) rest := by
  obtain ⟨c, t, hct, hd⟩ := natChars_cons n
  have htake : takeDigits (natChars n ++ rest) 0 = (n, rest) := by
    rw [takeDigits_natChars, takeDigits_stop rest _ h]
    simp
  rw [hct, List.cons_append] at htake ⊢
  simp only [scanDigits, hd, if_true, htake]

theorem skipWs_cons_of_not_ws (c : Char) (t : List Char) (h : isWsC c = false) :
    skipWs (c :: t) = c :: t := by
  simp [skipWs, h]

theorem skipWs_cons_space (l : List Char) : skipWs (' ' :: l) = skipWs l := by
  simp [skipWs, isWsC]

theorem scanInt_cons_space (l : List Char) : scanInt (' ' :: l) = scanInt l := by
  unfold scanInt
  rw [skipWs_cons_space]

theorem scanInt_intChars (i : Int) (rest : List Char) (h : headNotDigit rest) :
    scanInt (intChars i ++ rest) = IntScan.ok i rest := by
  rw [intChars]
  split
  · next hneg =>
    rw [List.cons_append]
    unfold scanInt
    rw [skipWs_cons_of_not_ws '-' _ (by decide)]
    simp only [if_pos rfl]
    rw [scanDigits_natChars true i.natAbs rest h]
    simp only [if_true]
    congr 1
    omega
  · next hpos =>
    obtain ⟨c, t, hct, hd⟩ := natChars_cons i.toNat
    unfold scanInt
    rw [hct, List.cons_append,
      skipWs_cons_of_not_ws c _ (isDigitC_not_ws c hd)]
    obtain ⟨hm, hp⟩ := isDigitC_ne_sign c hd
    simp only [if_neg hm, if_neg hp]
    rw [← List.cons_append, ← hct,
      scanDigits_natChars false i.toNat rest h]
    simp only [Bool.false_eq_true, if_false]
    congr 1
    omega

theorem scanInt_nil : scanInt [] = IntScan.inputFail := rfl

theorem scanInt_sp_intChars_sp (r : Int) (l : List Char) :
    scanInt (' ' :: (intChars r ++ ' ' :: l)) = IntScan.ok r (' ' :: l) := by
  rw [scanInt_cons_space]
  exact scanInt_intChars r _ (headNotDigit_cons ' ' _ (by decide))

theorem scanInt_sp_intChars (r : Int) :
    scanInt (' ' :: intChars r) = IntScan.ok r [] := by
  rw [scanInt_cons_space]
  have h := scanInt_intChars r [] headNotDigit_nil
  rwa [List.append_nil] at h

theorem sscanf_tag_dd_lineRC (tag : Char) (r c : Int) :
    sscanf_tag_dd tag (lineRC tag r c) = ⟨2, some r, some c⟩ := by
  simp only [lineRC, sscanf_tag_dd, if_pos rfl, scanInt_sp_intChars_sp,
    scanInt_sp_intChars, if_true]

theorem sscanf_tag_dd_lineR (tag : Char) (r : Int) :
    sscanf_tag_dd tag (lineR tag r) = ⟨1, some r, none⟩ := by
  simp only [lineR, sscanf_tag_dd, if_pos rfl, scanInt_sp_intChars,
    scanInt_nil, if_true]

theorem sscanf_tag_d_lineR (tag : Char) (r : Int) :
    sscanf_tag_d tag (lineR tag r) = ⟨1, some r, none⟩ := by
  simp only [lineR, sscanf_tag_d, if_pos rfl, scanInt_sp_intChars, if_true]

theorem sscanf_tag_d_lineRC (tag : Char) (r c : Int) :
    sscanf_tag_d tag (lineRC tag r c) = ⟨1, some r, none⟩ := by
  simp only [lineRC, sscanf_tag_d, if_pos rfl, scanInt_sp_intChars_sp,
    if_true]

/-! ### Claim theorems -/

/-- C3: for all integers R and C, parsing the line `"p R C"` yields
`Press(R,C)` (return code `'p'` with `args = (R, C)`), `"r R C"` yields
`Release(R,C)`, and `"p R"` / `"r R"` with the column omitted yield
`Press(R,0)` / `Release(R,0)` — the omitted column defaults to 0. -/
theorem C3_parse_press_release (R C : Int) :
    kscan_parse_command (lineRC 'p' R C) (-1, -1) = (('p'.toNat : Int), (R, C)) ∧
    kscan_parse_command (lineRC 'r' R C) (-1, -1) = (('r'.toNat : Int), (R, C)) ∧
    kscan_parse_command (lineR 'p' R) (-1, -1) = (('p'.toNat : Int), (R, 0)) ∧
    kscan_parse_command (lineR 'r' R) (-1, -1) = (('r'.toNat : Int), (R, 0)) := by
  have hp : (lineRC 'p' R C).head? = some 'p' := rfl
  have hr : (lineRC 'r' R C).head? = some 'r' := rfl
  have hp1 : (lineR 'p' R).head? = some 'p' := rfl
  have hr1 : (lineR 'r' R).head? = some 'r' := rfl
  refine ⟨?_, ?_, ?_, ?_⟩
  · simp [kscan_parse_command, hp, sscanf_tag_dd_lineRC]
  · simp [kscan_parse_command, hr, sscanf_tag_dd_lineRC]
  · simp [kscan_parse_command, hp1, sscanf_tag_dd_lineR]
  · simp [kscan_parse_command, hr1, sscanf_tag_dd_lineR]

/-- C4 counterexample: the line `"w 5 6"` carries two integer arguments, yet
`kscan_parse_command` accepts it as `Wait(5)` (the format `"w %d"` leaves
`" 6"` unread and `sscanf` still returns 1), instead of rejecting it with
`-EINVAL` as the claim requires. -/
theorem C4_counterexample :
    kscan_parse_command "w 5 6".toList (-1, -1) = (119, (5, -1)) ∧
    (kscan_parse_command "w 5 6".toList (-1, -1)).1 ≠ -EINVAL := by decide

/-- C4 amended: a line with tag `w` parses to `Wait(D)` exactly when at least
one integer argument follows — `"w D"` yields `Wait(D)`, but so does
`"w D E"`, the extra argument being ignored rather than rejected; only a
`w` line with no parsable integer (none at all, or a non-numeric token) is
rejected as `-EINVAL`. -/
theorem C4_wait_argcount_amended (D E : Int) :
    kscan_parse_command (lineR 'w' D) (-1, -1) = (('w'.toNat : Int), (D, -1)) ∧
    kscan_parse_command (lineRC 'w' D E) (-1, -1) = (('w'.toNat : Int), (D, -1)) ∧
    kscan_parse_command ['w'] (-1, -1) = (-EINVAL, (-1, -1)) ∧
    kscan_parse_command ('w' :: ' ' :: ['x']) (-1, -1) = (-EINVAL, (-1, -1)) := by
  have hw : (lineR 'w' D).head? = some 'w' := rfl
  have hw2 : (lineRC 'w' D E).head? = some 'w' := rfl
  refine ⟨?_, ?_, by decide, by decide⟩
  · simp [kscan_parse_command, hw, sscanf_tag_d_lineR]
  · simp [kscan_parse_command, hw2, sscanf_tag_d_lineRC]

/-! ### Line-reader lemmas -/

theorem recvAux_append (cs : List Char) :
    ∀ (acc : List Char) (rest : List Poll),
      (∀ x ∈ cs, x ≠ '\n' ∧ x ≠ '\x00') →
      acc.length + cs.length ≤ MAX_CMD_LEN - 1 →
      recvAux (cs.map Poll.ch ++ rest) acc = recvAux rest (acc ++ cs) := by
  induction cs with
  | nil => intro acc rest _ _; simp
  | cons c cs ih =>
    intro acc rest hcs hlen
    obtain ⟨hc1, hc2⟩ := hcs c (List.mem_cons_self ..)
    have h1 : ¬ (MAX_CMD_LEN - 1 ≤ acc.length) := by
      simp only [MAX_CMD_LEN, List.length_cons] at hlen ⊢
      omega
    have h2 : ¬ (c = '\n' ∨ c = '\x00') := by
      rintro (h | h)
      · exact hc1 h
      · exact hc2 h
    simp only [List.map_cons, List.cons_append, List.append_eq, recvAux]
    rw [if_neg h1, if_neg h2,
      ih (acc ++ [c]) rest (fun x hx => hcs x (List.mem_cons_of_mem c hx))
        (by simp only [MAX_CMD_LEN, List.length_append, List.length_cons,
              List.length_nil] at hlen ⊢; omega)]
    congr 1
    simp

theorem recvAux_code (src : List Poll) :
    ∀ acc, (recvAux src acc).1 = 0 ∨ (recvAux src acc).1 = -ENODATA ∨
      (recvAux src acc).1 = -EOVERFLOW := by
  induction src with
  | nil =>
    intro acc
    simp only [recvAux]
    split <;> simp
  | cons p src ih =>
    intro acc
    cases p with
    | err e =>
      simp only [recvAux]
      split <;> simp
    | ch c =>
      simp only [recvAux]
      split
      · simp
      · split
        · split <;> simp
        · exact ih (acc ++ [c])

theorem recv_line_sentinel_first (rest : List Poll) :
    recv_line (Poll.ch '\x00' :: rest) = (-ENODATA, []) := by
  rw [recv_line]
  simp only [recvAux]
  rw [if_neg (by decide), if_pos (by decide), if_pos (by decide)]

theorem recv_line_newline_first (rest : List Poll) :
    recv_line (Poll.ch '\n' :: rest) = (0, []) := by
  rw [recv_line]
  simp only [recvAux]
  rw [if_neg (by decide), if_pos (by decide), if_neg (by decide)]

theorem recv_line_terminated (pre : List Char) (c : Char) (rest : List Poll)
    (hne : pre ≠ []) (hlen : pre.length ≤ MAX_CMD_LEN - 2)
    (hpre : ∀ x ∈ pre, x ≠ '\n' ∧ x ≠ '\x00') (hc : c = '\n' ∨ c = '\x00') :
    recv_line (pre.map Poll.ch ++ Poll.ch c :: rest) = (0, pre) := by
  rw [recv_line, recvAux_append pre [] _ hpre
    (by simp only [MAX_CMD_LEN] at hlen ⊢; simpa using by omega)]
  simp only [List.nil_append, recvAux]
  rw [if_neg (by simp only [MAX_CMD_LEN] at hlen ⊢; omega), if_pos hc,
    if_neg (by simp [hne])]

theorem recv_line_err_after (cs : List Char) (e : Int) (rest : List Poll)
    (hne : cs ≠ []) (hlen : cs.length ≤ MAX_CMD_LEN - 1)
    (hcs : ∀ x ∈ cs, x ≠ '\n' ∧ x ≠ '\x00') :
    recv_line (cs.map Poll.ch ++ Poll.err e :: rest) = (0, cs) := by
  rw [recv_line, recvAux_append cs [] _ hcs (by simpa using hlen)]
  simp only [List.nil_append, recvAux]
  rw [if_neg (by simp [hne])]

theorem recv_line_overflow (cs : List Char) (d : Char) (rest : List Poll)
    (hlen : cs.length = MAX_CMD_LEN - 1)
    (hcs : ∀ x ∈ cs, x ≠ '\n' ∧ x ≠ '\x00') :
    recv_line (cs.map Poll.ch ++ Poll.ch d :: rest) = (-EOVERFLOW, cs) := by
  rw [recv_line, recvAux_append cs [] _ hcs (by simp [hlen])]
  simp only [List.nil_append, recvAux]
  rw [if_pos (by omega)]

/-! ### Handler dispatch lemmas -/

theorem handler_of_enodata (cfg : KscanPttyConfig) (src : List Poll) (idx : Int)
    (h : (recv_line src).1 = -ENODATA) :
    kscan_ptty_work_handler cfg src idx =
      if cfg.exit_after then ([Effect.logInfo, Effect.exitProc 0], idx)
      else ([Effect.logInfo], idx) := by
  simp only [kscan_ptty_work_handler, h, if_pos rfl, if_true]

theorem handler_of_overflow (cfg : KscanPttyConfig) (src : List Poll) (idx : Int)
    (buf : List Char) (h : recv_line src = (-EOVERFLOW, buf)) :
    kscan_ptty_work_handler cfg src idx =
      ([Effect.logErrTooLong buf, Effect.exitProc 1], idx) := by
  simp only [kscan_ptty_work_handler, h]
  norm_num [ENODATA, EOVERFLOW]

theorem handler_of_ok (cfg : KscanPttyConfig) (src : List Poll) (idx : Int)
    (line : List Char) (h : recv_line src = (0, line)) :
    kscan_ptty_work_handler cfg src idx =
      (let p := kscan_parse_command line (-1, -1)
       if p.1 = ('p'.toNat : Int) then
         ([Effect.logDbg, Effect.callback p.2.1 p.2.2 true,
           Effect.schedule cfg.delay_ms], idx + 1)
       else if p.1 = ('r'.toNat : Int) then
         ([Effect.logDbg, Effect.callback p.2.1 p.2.2 false,
           Effect.schedule cfg.delay_ms], idx + 1)
       else if p.1 = ('w'.toNat : Int) then
         ([Effect.logDbg, Effect.schedule p.2.1], idx + 1)
       else ([Effect.logErrInvalid line], idx)) := by
  simp only [kscan_ptty_work_handler, h]
  norm_num [ENODATA, EOVERFLOW]

/-- C1 counterexample: a source whose very first read is the line terminator
`'\n'` has observed a terminator with zero characters accumulated, yet
`recv_line` returns `0` (`Ok` of the empty line), not `-ENODATA` (`Empty`)
as the claim requires — only the NUL idle sentinel is classified `Empty`. -/
theorem C1_counterexample :
    recv_line [Poll.ch '\n'] = (0, []) ∧
    (recv_line [Poll.ch '\n']).1 ≠ -ENODATA := by decide

/-- C1 amended: `recv_line` classifies a read whose first character is the
idle sentinel `'\0'` (zero characters accumulated) as `Empty`; a first-read
line terminator `'\n'` instead yields `Ok` of the empty line; and a
terminator or sentinel observed after at least one (and at most 126)
accumulated characters yields `Ok` of the accumulated characters with the
terminator stripped. -/
theorem C1_recv_line_classify_amended :
    (∀ rest, recv_line (Poll.ch '\x00' :: rest) = (-ENODATA, [])) ∧
    (∀ rest, recv_line (Poll.ch '\n' :: rest) = (0, [])) ∧
    (∀ (pre : List Char) (c : Char) (rest : List Poll), pre ≠ [] →
      pre.length ≤ MAX_CMD_LEN - 2 → (∀ x ∈ pre, x ≠ '\n' ∧ x ≠ '\x00') →
      (c = '\n' ∨ c = '\x00') →
      recv_line (pre.map Poll.ch ++ Poll.ch c :: rest) = (0, pre)) :=
  ⟨recv_line_sentinel_first, recv_line_newline_first, recv_line_terminated⟩

/-- C1 witness: a one-character line ended by the idle sentinel reads back
as `Ok ['a']`. -/
theorem C1_witness :
    recv_line (['a'].map Poll.ch ++ Poll.ch '\x00' :: []) = (0, ['a']) :=
  C1_recv_line_classify_amended.2.2 ['a'] '\x00' [] (by decide) (by decide)
    (by decide) (by decide)

/-- C2: on a tick whose line reads `Ok` and parses successfully, a `w`
command only reschedules after the parsed duration (no sink callback), and a
`p`/`r` command invokes the sink callback exactly once with
`(row, col, is_press)` — `is_press` true for `p`, false for `r` — and then
reschedules after the configured default delay. -/
theorem C2_ok_parse_dispatch (cfg : KscanPttyConfig) (src : List Poll)
    (idx : Int) (line : List Char) (a0 a1 : Int)
    (hr : recv_line src = (0, line)) :
    (kscan_parse_command line (-1, -1) = (('w'.toNat : Int), (a0, a1)) →
      kscan_ptty_work_handler cfg src idx =
        ([Effect.logDbg, Effect.schedule a0], idx + 1)) ∧
    (kscan_parse_command line (-1, -1) = (('p'.toNat : Int), (a0, a1)) →
      kscan_ptty_work_handler cfg src idx =
        ([Effect.logDbg, Effect.callback a0 a1 true,
          Effect.schedule cfg.delay_ms], idx + 1)) ∧
    (kscan_parse_command line (-1, -1) = (('r'.toNat : Int), (a0, a1)) →
      kscan_ptty_work_handler cfg src idx =
        ([Effect.logDbg, Effect.callback a0 a1 false,
          Effect.schedule cfg.delay_ms], idx + 1)) := by
  rw [handler_of_ok cfg src idx line hr]
  refine ⟨?_, ?_, ?_⟩ <;> intro hp <;> simp only [hp, if_true]
  · rw [if_neg (by decide), if_neg (by decide)]
  · rw [if_neg (by decide)]

/-- C2 witness: the line `"p 1 2\n"` makes the tick call the sink once with
`(1, 2, true)` and reschedule after the default 500 ms delay. -/
theorem C2_witness :
    kscan_ptty_work_handler ⟨500, false⟩ ("p 1 2\n".toList.map Poll.ch) 0 =
      ([Effect.logDbg, Effect.callback 1 2 true, Effect.schedule 500], 1) :=
  (C2_ok_parse_dispatch ⟨500, false⟩ ("p 1 2\n".toList.map Poll.ch) 0
    ("p 1 2".toList) 1 2 (by decide)).2.1 (by decide)

/-- C5: when a tick's read is `Empty` (`-ENODATA`), the handler logs an info
message and then exits with code 0 when `exit_after` is configured, or
returns with no reschedule, no exit, no sink callback and no error log
otherwise. -/
theorem C5_empty_policy (cfg : KscanPttyConfig) (src : List Poll) (idx : Int)
    (h : (recv_line src).1 = -ENODATA) :
    (cfg.exit_after = true →
      kscan_ptty_work_handler cfg src idx =
        ([Effect.logInfo, Effect.exitProc 0], idx)) ∧
    (cfg.exit_after = false →
      kscan_ptty_work_handler cfg src idx = ([Effect.logInfo], idx)) := by
  rw [handler_of_enodata cfg src idx h]
  constructor <;> intro he <;> rw [he] <;> simp

/-- C5 witness: an exhausted source exits 0 under `exit_after`, and merely
stops under the default configuration. -/
theorem C5_witness :
    kscan_ptty_work_handler ⟨500, true⟩ [] 0 =
      ([Effect.logInfo, Effect.exitProc 0], 0) ∧
    kscan_ptty_work_handler ⟨500, false⟩ [] 0 = ([Effect.logInfo], 0) :=
  ⟨(C5_empty_policy ⟨500, true⟩ [] 0 (by decide)).1 rfl,
   (C5_empty_policy ⟨500, false⟩ [] 0 (by decide)).2 rfl⟩

/-- C6: when the line reads `Ok` but the parser rejects it (`-EINVAL`), the
handler logs the rejected line and returns — no reschedule, no sink
callback, no exit — halting the simulator silently like the `Idle` case. -/
theorem C6_invalid_halts (cfg : KscanPttyConfig) (src : List Poll) (idx : Int)
    (line : List Char) (hr : recv_line src = (0, line))
    (hp : (kscan_parse_command line (-1, -1)).1 = -EINVAL) :
    kscan_ptty_work_handler cfg src idx = ([Effect.logErrInvalid line], idx) := by
  rw [handler_of_ok cfg src idx line hr]
  simp only [hp]
  rw [if_neg (by decide), if_neg (by decide), if_neg (by decide)]

/-- C6 witness: the unknown command `"x 1\n"` is logged and the tick takes no
further action. -/
theorem C6_witness :
    kscan_ptty_work_handler ⟨500, false⟩ ("x 1\n".toList.map Poll.ch) 0 =
      ([Effect.logErrInvalid "x 1".toList], 0) :=
  C6_invalid_halts ⟨500, false⟩ ("x 1\n".toList.map Poll.ch) 0 ("x 1".toList)
    (by decide) (by decide)

/-- C7: a source yielding 128 or more characters with no terminator or
sentinel makes `recv_line` return `Overflow` with a diagnostic buffer of at
most 127 characters, and the handler then logs the truncated line and exits
with code 1 without ever invoking the sink callback. -/
theorem C7_overflow_fatal (cfg : KscanPttyConfig) (idx : Int) (cs : List Char)
    (d : Char) (rest : List Poll) (hlen : cs.length = MAX_CMD_LEN - 1)
    (hcs : ∀ x ∈ cs, x ≠ '\n' ∧ x ≠ '\x00') (_hd : d ≠ '\n' ∧ d ≠ '\x00') :
    recv_line (cs.map Poll.ch ++ Poll.ch d :: rest) = (-EOVERFLOW, cs) ∧
    cs.length ≤ MAX_CMD_LEN - 1 ∧
    kscan_ptty_work_handler cfg (cs.map Poll.ch ++ Poll.ch d :: rest) idx =
      ([Effect.logErrTooLong cs, Effect.exitProc 1], idx) := by
  have hrecv := recv_line_overflow cs d rest hlen hcs
  exact ⟨hrecv, le_of_eq hlen, handler_of_overflow cfg _ idx cs hrecv⟩

/-- C7 witness: 128 copies of `'a'`/`'b'` with no terminator overflow and
terminate the process with exit code 1, the sink never being called. -/
theorem C7_witness :
    kscan_ptty_work_handler ⟨500, false⟩
      ((List.replicate 127 'a').map Poll.ch ++ Poll.ch 'b' :: []) 0 =
      ([Effect.logErrTooLong (List.replicate 127 'a'), Effect.exitProc 1], 0) :=
  (C7_overflow_fatal ⟨500, false⟩ 0 (List.replicate 127 'a') 'b' []
    (by simp [MAX_CMD_LEN])
    (fun x hx => by rw [List.eq_of_mem_replicate hx]; exact ⟨by decide, by decide⟩)
    (by decide)).2.2

/-- C8 counterexample: a line of exactly 127 characters followed by a
terminator is NOT assembled as `Ok` — the capacity check runs before the
terminator check, so `recv_line` reports `-EOVERFLOW` even though only 127
characters (not more) precede the terminator. -/
theorem C8_counterexample :
    recv_line ((List.replicate 127 'a').map Poll.ch ++ Poll.ch '\n' :: []) =
      (-EOVERFLOW, List.replicate 127 'a') ∧
    recv_line ((List.replicate 127 'a').map Poll.ch ++ Poll.ch '\n' :: []) ≠
      (0, List.replicate 127 'a') := by
  have h := recv_line_overflow (List.replicate 127 'a') '\n' []
    (by simp [MAX_CMD_LEN])
    (fun x hx => by rw [List.eq_of_mem_replicate hx]; exact ⟨by decide, by decide⟩)
  refine ⟨h, ?_⟩
  rw [h]
  intro hc
  rw [Prod.mk.injEq] at hc
  exact absurd hc.1 (by decide)

/-- C8 amended: the longest line `recv_line` assembles as `Ok` is 126
characters plus a terminator; at 127 characters the capacity check fires on
reading the terminator itself, producing `Overflow`, because that check
precedes the terminator check in the read loop. -/
theorem C8_max_line_amended (cs : List Char) (rest : List Poll)
    (hcs : ∀ x ∈ cs, x ≠ '\n' ∧ x ≠ '\x00') :
    (cs.length = MAX_CMD_LEN - 2 →
      recv_line (cs.map Poll.ch ++ Poll.ch '\n' :: rest) = (0, cs)) ∧
    (cs.length = MAX_CMD_LEN - 1 →
      recv_line (cs.map Poll.ch ++ Poll.ch '\n' :: rest) = (-EOVERFLOW, cs)) := by
  constructor
  · intro hlen
    refine recv_line_terminated cs '\n' rest ?_ (le_of_eq hlen) hcs (Or.inl rfl)
    intro hnil
    rw [hnil] at hlen
    simp [MAX_CMD_LEN] at hlen
  · intro hlen
    exact recv_line_overflow cs '\n' rest hlen hcs

/-- C8 witness: a 126-character line plus newline is assembled as `Ok`. -/
theorem C8_witness :
    recv_line ((List.replicate 126 'a').map Poll.ch ++ Poll.ch '\n' :: []) =
      (0, List.replicate 126 'a') :=
  (C8_max_line_amended (List.replicate 126 'a') []
    (fun x hx => by rw [List.eq_of_mem_replicate hx]; exact ⟨by decide, by decide⟩)).1
    (by simp [MAX_CMD_LEN])

/-- C9 counterexample: a source whose read primitive reports the fault `-5`
on the very first poll does not make `recv_line` propagate `-5`: the loop
merely ends and `recv_line` returns `-ENODATA`, which the handler treats as
`Empty` (info log, no exit), never reaching the unclassified-fault branch. -/
theorem C9_counterexample :
    recv_line [Poll.err (-5)] = (-ENODATA, []) ∧
    (recv_line [Poll.err (-5)]).1 ≠ -5 ∧
    kscan_ptty_work_handler ⟨500, false⟩ [Poll.err (-5)] 0 =
      ([Effect.logInfo], 0) := by decide

/-- C9 amended: `recv_line` never propagates a poll fault.  A fault on the
first read yields `-ENODATA` (classified `Empty`); a fault after at least
one accumulated character yields `0` (`Ok` of the partial line); and every
`recv_line` return code is one of `0`, `-ENODATA`, `-EOVERFLOW`, so the
handler's `Unavailable` branch (log + exit 1) is unreachable. -/
theorem C9_fault_never_propagated :
    (∀ (e : Int) (rest : List Poll),
      recv_line (Poll.err e :: rest) = (-ENODATA, [])) ∧
    (∀ (cs : List Char) (e : Int) (rest : List Poll), cs ≠ [] →
      cs.length ≤ MAX_CMD_LEN - 1 → (∀ x ∈ cs, x ≠ '\n' ∧ x ≠ '\x00') →
      recv_line (cs.map Poll.ch ++ Poll.err e :: rest) = (0, cs)) ∧
    (∀ src : List Poll, (recv_line src).1 = 0 ∨ (recv_line src).1 = -ENODATA ∨
      (recv_line src).1 = -EOVERFLOW) := by
  refine ⟨?_, recv_line_err_after, fun src => recvAux_code src []⟩
  intro e rest
  rw [recv_line]
  simp only [recvAux, if_true]

/-- C9 witness: a partial line `['a']` cut off by a poll fault comes back as
`Ok ['a']`, not as the fault. -/
theorem C9_witness :
    recv_line (['a'].map Poll.ch ++ Poll.err (-5) :: []) = (0, ['a']) :=
  C9_fault_never_propagated.2.1 ['a'] (-5) [] (by decide) (by decide) (by decide)

/-- C10: `kscan_ptty_configure` with a NULL callback returns `-EINVAL` and
leaves the driver data untouched (no callback stored, nothing scheduled);
with a non-NULL callback it stores the callback, schedules the work item
after the configured default delay, and returns 0. -/
theorem C10_configure (cfg : KscanPttyConfig) (d : KscanPttyData) :
    kscan_ptty_configure cfg d none = (-EINVAL, d) ∧
    (∀ f : Nat, kscan_ptty_configure cfg d (some f) =
      (0, ⟨some f, some cfg.delay_ms, d.cmd_idx⟩)) :=
  ⟨rfl, fun _ => rfl⟩
